import Mathlib

/-!
Shallow embedding of the pymarkdown scan pipeline:
the pragma extension (`pragma_token.py`) and the scan orchestrator
(`main.py`).  Python strings are embedded as `List Char`, Python dicts as
insertion-ordered association lists with unique keys, Python sets as
duplicate-free lists where only membership is observed.
-/

/-- Python strings are modelled as lists of characters. -/
abbrev Str := List Char

/-- ASCII whitespace, as stripped by Python `str.strip` / `str.rstrip`. -/
def isWS (c : Char) : Bool :=
  c = ' ' ∨ c = '\t' ∨ c = '\n' ∨ c = '\x0d' ∨ c = '\x0b' ∨ c = '\x0c'

/-- Python `str.rstrip()`: drop trailing whitespace. -/
def rstrip (s : Str) : Str :=
  (s.reverse.dropWhile isWS).reverse

/-- Python `str.strip()`: drop leading and trailing whitespace. -/
def strip (s : Str) : Str :=
  rstrip (s.dropWhile isWS)

/-- Python `str.lower()` (ASCII case folding). -/
def lower (s : Str) : Str :=
  s.map Char.toLower

/-- Python `str.startswith(p)`. -/
def startsWith (s p : Str) : Bool :=
  p.isPrefixOf s

/-- Python `str.endswith(p)`. -/
def endsWith (s p : Str) : Bool :=
  p.isSuffixOf s

/-- Python slice `s[a:-e]` with a nonnegative start and negative end. -/
def pySlice (s : Str) (a e : Nat) : Str :=
  (s.take (s.length - e)).drop a

/-- Python `s.split(",")`: split on every comma, keeping empty pieces. -/
def splitComma : Str → List Str
  | [] => [[]]
  | c :: cs =>
    if c = ',' then [] :: splitComma cs
    else
      match splitComma cs with
      | [] => [[c]]
      | p :: ps => (c :: p) :: ps

/-- First-match lookup in an association list (Python `d[k]` / `k in d`). -/
def alookup {α β : Type} [DecidableEq α] (k : α) : List (α × β) → Option β
  | [] => none
  | p :: ps => if p.1 = k then some p.2 else alookup k ps

/-- Python dict assignment `d[k] = v`: update in place if the key exists
(keeping its position, per CPython insertion-order semantics), otherwise
append a fresh entry at the end. -/
def dinsert {α β : Type} [DecidableEq α] (d : List (α × β)) (k : α) (v : β) :
    List (α × β) :=
  if k ∈ d.map Prod.fst then
    d.map (fun p => if p.1 = k then (p.1, v) else p)
  else d ++ [(k, v)]

/-- Python `set.add`: membership-based insertion. -/
def setAdd (s : List Str) (x : Str) : List Str :=
  if x ∈ s then s else s ++ [x]

/-- Modelled from the spec: `ParserHelper.extract_spaces` (the module
`pymarkdown/parser_helper.py` is not part of the sources).  Per the spec's
"the line's leading-whitespace extraction", it returns the index after the
run of whitespace starting at `i` together with that run, and fails
(Python `(None, None)`) when the start index is out of range. -/
def extract_spaces (s : Str) (i : Nat) : Option (Nat × Str) :=
  if i ≤ s.length then
    some (i + ((s.drop i).takeWhile isWS).length, (s.drop i).takeWhile isWS)
  else none

/-- Modelled from the spec: `ParserHelper.extract_until_spaces` (module not
in the sources).  Per the spec's "first whitespace-delimited token", it
returns the index after the maximal whitespace-free run starting at `i`
together with that run, failing when the index is out of range. -/
def extract_until_spaces (s : Str) (i : Nat) : Option (Nat × Str) :=
  if i ≤ s.length then
    some (i + ((s.drop i).takeWhile (fun c => ¬ isWS c)).length,
      (s.drop i).takeWhile (fun c => ¬ isWS c))
  else none

/-- `PragmaToken.pragma_prefix = "<!--"`. -/
def pragmaStart : Str := "<!--".toList

/-- `PragmaToken.pragma_alternate_prefix = "<!---"`. -/
def pragmaAltStart : Str := "<!---".toList

/-- `PragmaToken.pragma_title = "pyml "`. -/
def pragmaTitle : Str := "pyml ".toList

/-- `PragmaToken.pragma_suffix = "-->"`. -/
def pragmaEnd : Str := "-->".toList

/-- The single recognized pragma command, `"disable-next-line"`. -/
def dnlStr : Str := "disable-next-line".toList

/-- An apostrophe character, used in the literal error-message texts. -/
def squote : Char := Char.ofNat 39

/-- `FoundPlugin`: only the canonical `plugin_id` field is read by the
pragma compiler (`all_ids[next_id].plugin_id`). -/
structure FoundPlugin where
  plugin_id : Str
deriving DecidableEq, Repr

/-- One invocation of the `log_pragma_failure` callback:
`(scan_file, actual_line_number, message)`. -/
structure PragmaError where
  scan_file : Str
  line : Int
  message : Str
deriving DecidableEq, Repr

/-- Message `"Inline configuration specified without command."`. -/
def msgNoCommand : Str :=
  "Inline configuration specified without command.".toList

/-- Message `"Inline configuration command (command) not understood."`
with the command in single quotes, as in the f-string in the source. -/
def msgNotUnderstood (command : Str) : Str :=
  "Inline configuration command ".toList ++ [squote] ++ command ++ [squote] ++
    " not understood.".toList

/-- Message for a blank plugin id inside a `disable-next-line` list. -/
def msgBlankId (command : Str) : Str :=
  "Inline configuration command ".toList ++ [squote] ++ command ++ [squote] ++
    " specified a plugin with a blank id.".toList

/-- Message for an unknown plugin id inside a `disable-next-line` list,
naming the offending id in single quotes. -/
def msgUnknownId (command nextId : Str) : Str :=
  "Inline configuration command ".toList ++ [squote] ++ command ++ [squote] ++
    " unable to find a plugin with the id ".toList ++ [squote] ++ nextId ++
    [squote] ++ ".".toList

/-- `PragmaExtension.look_for_pragmas` (pragma_token.py lines 60-107).
Returns the Python boolean result together with the updated pragma-lines
dict (`parser_properties.pragma_lines` is mutated in place in Python). -/
def look_for_pragmas (lineNumber : Int) (lineToParse : Str)
    (containerDepth : Nat) (extractedWhitespace : Option Str)
    (pragmaLines : List (Int × Str)) : Bool × List (Int × Str) :=
  if containerDepth = 0 ∧
      (extractedWhitespace = none ∨ extractedWhitespace = some []) ∧
      (startsWith lineToParse pragmaStart ∨
        startsWith lineToParse pragmaAltStart) then
    let wasExtended := startsWith lineToParse pragmaAltStart
    match extract_spaces lineToParse
        (if wasExtended then pragmaAltStart.length else pragmaStart.length) with
    | none => (false, pragmaLines)
    | some (startIndex, _) =>
      let remainingLine := lower (rstrip (lineToParse.drop startIndex))
      if startsWith remainingLine pragmaTitle ∧
          endsWith remainingLine pragmaEnd then
        let indexNumber := if wasExtended then -lineNumber else lineNumber
        (true, dinsert pragmaLines indexNumber lineToParse)
      else (false, pragmaLines)
  else (false, pragmaLines)

/-- One step of the id loop in
`PragmaExtension.__handle_disable_next_line` (lines 182-198): normalize the
comma-separated token, then log a blank id, add the canonical id of a known
plugin, or log an unknown id. -/
def disableStep (scanFile : Str) (actualLineNumber : Int)
    (allIds : List (Str × FoundPlugin)) (command : Str)
    (acc : List Str × List PragmaError) (nextId0 : Str) :
    List Str × List PragmaError :=
  let nextId := lower (strip nextId0)
  if nextId = [] then
    (acc.1, acc.2 ++ [⟨scanFile, actualLineNumber, msgBlankId command⟩])
  else
    match alookup nextId allIds with
    | some plugin => (setAdd acc.1 plugin.plugin_id, acc.2)
    | none =>
      (acc.1, acc.2 ++ [⟨scanFile, actualLineNumber, msgUnknownId command nextId⟩])

/-- `PragmaExtension.__handle_disable_next_line` (lines 169-201). Returns
the updated suppression table together with the list of logged errors. -/
def handle_disable_next_line (commandData : Str) (afterCommandIndex : Nat)
    (scanFile : Str) (actualLineNumber : Int)
    (documentPragmas : List (Int × List Str))
    (allIds : List (Str × FoundPlugin)) (command : Str) :
    List (Int × List Str) × List PragmaError :=
  let idsToDisable := splitComma (commandData.drop afterCommandIndex)
  let r := idsToDisable.foldl (disableStep scanFile actualLineNumber allIds command)
    ([], [])
  if r.1 ≠ [] then
    (dinsert documentPragmas (actualLineNumber + 1) r.1, r.2)
  else (documentPragmas, r.2)

/-- Lines 122-126 of `compile_single_pragma`: the prefix length to strip,
recovered from the sign of the stored key. -/
def prefixLengthOf (nextLineNumber : Int) : Nat :=
  if nextLineNumber > 0 then pragmaStart.length else pragmaAltStart.length

/-- Lines 122-127 of `compile_single_pragma`: the unsigned source line
number, recovered as the magnitude of the stored key. -/
def actualLineNumberOf (nextLineNumber : Int) : Int :=
  if nextLineNumber > 0 then nextLineNumber else -nextLineNumber

/-- The `line_after_prefix` local of `compile_single_pragma` (line 129). -/
def lineAfterOf (nextLineNumber : Int) (raw : Str) : Str :=
  rstrip (raw.drop (prefixLengthOf nextLineNumber))

/-- The `command_data` local of `compile_single_pragma` (lines 130-135):
the directive body between the title and the closing token. -/
def commandDataOf (nextLineNumber : Int) (raw : Str) : Str :=
  pySlice (lineAfterOf nextLineNumber raw)
    (((lineAfterOf nextLineNumber raw).takeWhile isWS).length + pragmaTitle.length)
    pragmaEnd.length

/-- The `after_command_index` local of `compile_single_pragma` (lines
136-138): the index just past the command token. -/
def afterCommandIndexOf (nextLineNumber : Int) (raw : Str) : Nat :=
  ((commandDataOf nextLineNumber raw).takeWhile (fun c => ¬ isWS c)).length

/-- The case-folded `command` local of `compile_single_pragma` (lines
136-141). -/
def commandOf (nextLineNumber : Int) (raw : Str) : Str :=
  lower ((commandDataOf nextLineNumber raw).takeWhile (fun c => ¬ isWS c))

/-- `PragmaExtension.compile_single_pragma` (lines 110-164).  `none` models
a raised exception (a `KeyError` on the pragma map or a failed `assert`);
otherwise the result carries the pragma map as the code leaves it, the
updated suppression table, and the logged errors. -/
def compile_single_pragma (scanFile : Str) (nextLineNumber : Int)
    (pragmaLines : List (Int × Str)) (allIds : List (Str × FoundPlugin))
    (documentPragmas : List (Int × List Str)) :
    Option (List (Int × Str) × List (Int × List Str) × List PragmaError) :=
  let actualLineNumber := actualLineNumberOf nextLineNumber
  match alookup nextLineNumber pragmaLines with
  | none => none
  | some raw =>
    let lineAfter := rstrip (raw.drop (prefixLengthOf nextLineNumber))
    match extract_spaces lineAfter 0 with
    | none => none
    | some (afterWhitespaceIndex, _) =>
      let commandData := pySlice lineAfter
        (afterWhitespaceIndex + pragmaTitle.length) pragmaEnd.length
      match extract_until_spaces commandData 0 with
      | none => none
      | some (afterCommandIndex, command0) =>
        let command := lower command0
        if command = [] then
          some (pragmaLines, documentPragmas,
            [⟨scanFile, actualLineNumber, msgNoCommand⟩])
        else if command = dnlStr then
          let r := handle_disable_next_line commandData afterCommandIndex
            scanFile actualLineNumber documentPragmas allIds command
          some (pragmaLines, r.1, r.2)
        else
          some (pragmaLines, documentPragmas,
            [⟨scanFile, actualLineNumber, msgNotUnderstood command⟩])

/-- Decimal rendering of a signed key, as Python `f"{k}"`. -/
def intStr (i : Int) : Str := (toString i).toList

/-- The `"".join(f";{k}:{v}" ...)[1:]` serialization computed in
`PragmaToken.__init__` (lines 216-230): iteration follows the dict's
insertion order. -/
def serializedPragmas (pragmaLines : List (Int × Str)) : Str :=
  (pragmaLines.flatMap (fun p => ';' :: (intStr p.1 ++ ':' :: p.2))).drop 1

/-- `PragmaToken`: the fields of the constructed token that the claims
observe (`pragma_lines` and the `extra_data` serialization payload). -/
structure PragmaTokenData where
  pragma_lines : List (Int × Str)
  extra_data : Str
deriving DecidableEq

/-- `PragmaToken.__init__`: stores the map and serializes it into
`extra_data`. -/
def mkPragmaToken (pragmaLines : List (Int × Str)) : PragmaTokenData :=
  ⟨pragmaLines, serializedPragmas pragmaLines⟩

/-- Events the scan orchestrator delivers to the plugin registry, in
order: the `starting_new_file`, `next_line`, `next_token` and
`completed_file` hook calls made by `PyMarkdownLint.__scan_file`.  Tokens
are abstract (the tokenizer is an external collaborator), identified by
their position in its emitted stream. -/
inductive ScanEvent where
  | startingNewFile : Str → ScanEvent
  | nextLine : Nat → Str → ScanEvent
  | nextToken : Nat → ScanEvent
  | completedFile : Nat → ScanEvent
deriving DecidableEq, Repr

/-- The `while next_line is not None` loop of `__scan_file` (main.py lines
123-129): starting from line number `n`, emit one `next_line` event per
remaining line, incrementing the counter, and return the events together
with the final value of `line_number`. -/
def scanLineLoop : Nat → List Str → List ScanEvent × Nat
  | n, [] => ([], n)
  | n, l :: ls =>
    let r := scanLineLoop (n + 1) ls
    (ScanEvent.nextLine n l :: r.1, r.2)

/-- `PyMarkdownLint.__scan_file` (main.py lines 116-139) on the non-fault
path: the raw-line pass over `lines` (one `next_line` hook per physical
line, counting from 1), then the token pass over the tokenizer's emitted
stream (modelled by its length `tokenCount`), then the `completed_file`
notification carrying the final value of the `line_number` variable. -/
def scan_file (file : Str) (lines : List Str) (tokenCount : Nat) :
    List ScanEvent :=
  let r := scanLineLoop 1 lines
  ScanEvent.startingNewFile file :: r.1 ++
    (List.range tokenCount).map ScanEvent.nextToken ++
    [ScanEvent.completedFile r.2]

/-- Outcome of scanning one file, as seen by the `try`/`except` in
`PyMarkdownLint.main` (lines 308-314): normal completion, or one of the
two caught exception types carrying its message. -/
inductive ScanOutcome where
  | ok : ScanOutcome
  | badPluginError : Str → ScanOutcome
  | badTokenizationError : Str → ScanOutcome
deriving DecidableEq, Repr

/-- The formatted message built by `PyMarkdownLint.__handle_scan_error`
(lines 273-282). -/
def formatScanError (typeName file msg : Str) : Str :=
  typeName ++ " encountered while scanning ".toList ++ [squote] ++ file ++
    [squote] ++ ":\n".toList ++ msg

/-- Result of the file loop in `PyMarkdownLint.main`: the files whose scan
completed, the error lines printed to stderr, and `some code` when the
process terminated through `sys.exit(code)` inside `__handle_error`. -/
structure RunResult where
  scannedFiles : List Str
  errorOutput : List Str
  exitCode : Option Nat
deriving DecidableEq, Repr

/-- The `for next_file in files_to_scan` loop of `PyMarkdownLint.main`
(lines 308-314): scan each file in order; a `BadPluginError` or
`BadTokenizationError` is routed to `__handle_scan_error`, which delegates
to `__handle_error` (lines 265-271) — that prints the formatted error and
calls `sys.exit(1)`, ending the whole run at once. -/
def scanLoop (outcome : Str → ScanOutcome) : List Str → RunResult
  | [] => ⟨[], [], none⟩
  | f :: rest =>
    match outcome f with
    | .ok =>
      let r := scanLoop outcome rest
      ⟨f :: r.scannedFiles, r.errorOutput, r.exitCode⟩
    | .badPluginError m =>
      ⟨[], [formatScanError "BadPluginError".toList f m], some 1⟩
    | .badTokenizationError m =>
      ⟨[], [formatScanError "BadTokenizationError".toList f m], some 1⟩

/-- The normalization `next_id.strip().lower()` applied to each
comma-separated token (line 183). -/
def normId (t : Str) : Str := lower (strip t)

/-- The errors logged for one comma-separated token by the loop body of
`__handle_disable_next_line` (lines 182-198): one blank-id error for a
token that normalizes to the empty string, nothing for a token found in
`all_ids`, and one unknown-id error otherwise. -/
def errOf (scanFile : Str) (actualLineNumber : Int)
    (allIds : List (Str × FoundPlugin)) (command : Str) (t : Str) :
    List PragmaError :=
  if normId t = [] then [⟨scanFile, actualLineNumber, msgBlankId command⟩]
  else
    match alookup (normId t) allIds with
    | some _ => []
    | none => [⟨scanFile, actualLineNumber, msgUnknownId command (normId t)⟩]

/-- The canonical plugin id a comma-separated token contributes to the
suppression set, when it is non-blank and found in `all_ids`
(`all_ids[next_id].plugin_id`, line 191). -/
def validCanon (allIds : List (Str × FoundPlugin)) (t : Str) : Option Str :=
  if normId t = [] then none
  else (alookup (normId t) allIds).map FoundPlugin.plugin_id

/-- Pieces joined with a single separator between consecutive pieces. -/
def joinSep (sep : Str) : List Str → Str
  | [] => []
  | [x] => x
  | x :: y :: ys => x ++ sep ++ joinSep sep (y :: ys)

/-- Built from the spec's words, for comparison with the source's
serialization: the spec claims consumers iterate the pragma map "in
numeric key order", so this reorders the entries by numeric value of the
signed key before serializing them. -/
def serializedPragmasNumeric (pragmaLines : List (Int × Str)) : Str :=
  serializedPragmas
    (List.insertionSort (fun a b => a.1 ≤ b.1) pragmaLines)

/-- Witness input: a standard-prefix directive line. -/
def wLine1 : Str := "<!-- pyml disable-next-line fred -->".toList

/-- Witness input: an alternate-prefix directive line. -/
def wLine2 : Str := "<!--- pyml disable-next-line barney -->".toList

/-- Witness input: a directive with no command after the title. -/
def wNoCmd : Str := "<!-- pyml -->".toList

/-- Witness input: a directive with an unrecognized command. -/
def wFrob : Str := "<!-- pyml frob x -->".toList

/-- Witness input: a registry with two plugins, keyed by alias. -/
def wIds : List (Str × FoundPlugin) :=
  [("fred".toList, ⟨"MD998".toList⟩), ("barney".toList, ⟨"MD999".toList⟩)]

/-- Witness input: a scanned file name. -/
def wFile : Str := "f.md".toList

/-- Witness input: a `command_data` body whose id list holds one known and
one unknown id. -/
def wCd : Str := "disable-next-line fred, zzz".toList

/-- Counterexample input for the run loop: scanning `a.md` raises
`BadTokenizationError("boom")`; every other file scans cleanly. -/
def c1Outcome : Str → ScanOutcome := fun f =>
  if f = "a.md".toList then ScanOutcome.badTokenizationError "boom".toList
  else ScanOutcome.ok

theorem extract_spaces_zero (s : Str) :
    extract_spaces s 0 = some ((s.takeWhile isWS).length, s.takeWhile isWS) := by
  simp [extract_spaces]

theorem extract_until_spaces_zero (s : Str) :
    extract_until_spaces s 0 =
      some ((s.takeWhile (fun c => ¬ isWS c)).length,
        s.takeWhile (fun c => ¬ isWS c)) := by
  simp [extract_until_spaces]

theorem alookup_map_update_self {α β : Type} [DecidableEq α]
    (d : List (α × β)) (k : α) (v : β) (h : k ∈ d.map Prod.fst) :
    alookup k (d.map (fun p => if p.1 = k then (p.1, v) else p)) = some v := by
  induction d with
  | nil => simp at h
  | cons p ps ih =>
    by_cases hp : p.1 = k
    · simp [alookup, hp]
    · rcases List.mem_map.1 h with ⟨q, hq, hq1⟩
      rcases List.mem_cons.1 hq with rfl | hq'
      · exact absurd hq1 hp
      · simpa [alookup, hp] using ih (List.mem_map.2 ⟨q, hq', hq1⟩)

theorem alookup_map_update_ne {α β : Type} [DecidableEq α]
    (d : List (α × β)) (k m : α) (v : β) (hmk : m ≠ k) :
    alookup m (d.map (fun p => if p.1 = k then (p.1, v) else p)) =
      alookup m d := by
  induction d with
  | nil => simp
  | cons p ps ih =>
    by_cases hp : p.1 = k
    · have hpm : ¬ p.1 = m := fun h2 => hmk (h2.symm.trans hp)
      simp [alookup, hp, hpm, hmk, Ne.symm hmk, ih]
    · by_cases hpm : p.1 = m
      · simp [alookup, hp, hpm, hmk, Ne.symm hmk]
      · simp [alookup, hp, hpm, ih]

theorem alookup_append_ne {α β : Type} [DecidableEq α]
    (d : List (α × β)) (k m : α) (v : β) (hmk : m ≠ k) :
    alookup m (d ++ [(k, v)]) = alookup m d := by
  induction d with
  | nil => simp [alookup, Ne.symm hmk]
  | cons p ps ih =>
    by_cases hpm : p.1 = m
    · simp [alookup, hpm]
    · simp [alookup, hpm, ih]

theorem alookup_eq_none {α β : Type} [DecidableEq α]
    (d : List (α × β)) (k : α) (h : k ∉ d.map Prod.fst) :
    alookup k d = none := by
  induction d with
  | nil => rfl
  | cons p ps ih =>
    have hp : ¬ p.1 = k := fun h2 =>
      h (List.mem_map.2 ⟨p, List.mem_cons_self p ps, h2⟩)
    have h' : k ∉ ps.map Prod.fst := fun h2 => by
      rcases List.mem_map.1 h2 with ⟨q, hq, hq1⟩
      exact h (List.mem_map.2 ⟨q, List.mem_cons_of_mem _ hq, hq1⟩)
    simp [alookup, hp, ih h']

theorem alookup_append_self {α β : Type} [DecidableEq α]
    (d : List (α × β)) (k : α) (v : β) (h : alookup k d = none) :
    alookup k (d ++ [(k, v)]) = some v := by
  induction d with
  | nil => simp [alookup]
  | cons p ps ih =>
    by_cases hp : p.1 = k
    · simp [alookup, hp] at h
    · simp only [List.cons_append]
      simp only [alookup, hp, if_false] at h ⊢
      exact ih h

theorem alookup_dinsert_self {α β : Type} [DecidableEq α]
    (d : List (α × β)) (k : α) (v : β) :
    alookup k (dinsert d k v) = some v := by
  unfold dinsert
  by_cases hk : k ∈ d.map Prod.fst
  · rw [if_pos hk]
    exact alookup_map_update_self d k v hk
  · rw [if_neg hk]
    exact alookup_append_self d k v (alookup_eq_none d k hk)

theorem alookup_dinsert_ne {α β : Type} [DecidableEq α]
    (d : List (α × β)) (k m : α) (v : β) (hmk : m ≠ k) :
    alookup m (dinsert d k v) = alookup m d := by
  unfold dinsert
  by_cases hk : k ∈ d.map Prod.fst
  · rw [if_pos hk]
    exact alookup_map_update_ne d k m v hmk
  · rw [if_neg hk]
    exact alookup_append_ne d k m v hmk

theorem mem_setAdd (s : List Str) (x y : Str) :
    y ∈ setAdd s x ↔ y ∈ s ∨ y = x := by
  by_cases h : x ∈ s
  · simp only [setAdd, if_pos h]
    constructor
    · exact fun hy => Or.inl hy
    · rintro (hy | rfl)
      · exact hy
      · exact h
  · simp [setAdd, h]

theorem disableStep_eq (sf : Str) (n : Int) (ids : List (Str × FoundPlugin))
    (cmd : Str) (acc : List Str × List PragmaError) (t : Str) :
    disableStep sf n ids cmd acc t =
      ((validCanon ids t).elim acc.1 (setAdd acc.1),
        acc.2 ++ errOf sf n ids cmd t) := by
  unfold disableStep validCanon errOf normId
  by_cases h : lower (strip t) = []
  · simp [h]
  · cases halook : alookup (lower (strip t)) ids <;> simp [h, halook]

theorem foldl_disableStep_snd (sf : Str) (n : Int)
    (ids : List (Str × FoundPlugin)) (cmd : Str) (ts : List Str)
    (acc : List Str × List PragmaError) :
    (ts.foldl (disableStep sf n ids cmd) acc).2 =
      acc.2 ++ ts.flatMap (errOf sf n ids cmd) := by
  induction ts generalizing acc with
  | nil => simp
  | cons t ts ih =>
    rw [List.foldl_cons, ih, disableStep_eq]
    simp [List.append_assoc]

theorem foldl_disableStep_fst_mem (sf : Str) (n : Int)
    (ids : List (Str × FoundPlugin)) (cmd : Str) (ts : List Str)
    (acc : List Str × List PragmaError) (x : Str) :
    x ∈ (ts.foldl (disableStep sf n ids cmd) acc).1 ↔
      x ∈ acc.1 ∨ ∃ t ∈ ts, validCanon ids t = some x := by
  induction ts generalizing acc with
  | nil => simp
  | cons t ts ih =>
    rw [List.foldl_cons, ih, disableStep_eq]
    cases hv : validCanon ids t with
    | none =>
      simp only [Option.elim, List.mem_cons]
      constructor
      · rintro (h0 | ⟨u, hu, hx⟩)
        · exact Or.inl h0
        · exact Or.inr ⟨u, Or.inr hu, hx⟩
      · rintro (h0 | ⟨u, (rfl | hu), hx⟩)
        · exact Or.inl h0
        · rw [hv] at hx; cases hx
        · exact Or.inr ⟨u, hu, hx⟩
    | some c =>
      simp only [Option.elim, mem_setAdd, List.mem_cons]
      constructor
      · rintro ((h0 | rfl) | ⟨u, hu, hx⟩)
        · exact Or.inl h0
        · exact Or.inr ⟨t, Or.inl rfl, hv⟩
        · exact Or.inr ⟨u, Or.inr hu, hx⟩
      · rintro (h0 | ⟨u, (rfl | hu), hx⟩)
        · exact Or.inl (Or.inl h0)
        · rw [hv] at hx
          exact Or.inl (Or.inr (Option.some.inj hx).symm)
        · exact Or.inr ⟨u, hu, hx⟩

theorem foldl_disableStep_fst_eq_nil (sf : Str) (n : Int)
    (ids : List (Str × FoundPlugin)) (cmd : Str) (ts : List Str) :
    (ts.foldl (disableStep sf n ids cmd) ([], [])).1 = [] ↔
      ∀ t ∈ ts, validCanon ids t = none := by
  rw [List.eq_nil_iff_forall_not_mem]
  constructor
  · intro h t ht
    cases hv : validCanon ids t with
    | none => rfl
    | some c =>
      exact absurd ((foldl_disableStep_fst_mem sf n ids cmd ts ([], []) c).2
        (Or.inr ⟨t, ht, hv⟩)) (h c)
  · intro h x hx
    rcases (foldl_disableStep_fst_mem sf n ids cmd ts ([], []) x).1 hx with
      h0 | ⟨t, ht, hv⟩
    · simp at h0
    · rw [h t ht] at hv
      cases hv

theorem handle_disable_next_line_eq (cd : Str) (aci : Nat) (sf : Str)
    (n : Int) (dp : List (Int × List Str)) (ids : List (Str × FoundPlugin))
    (cmd : Str) :
    handle_disable_next_line cd aci sf n dp ids cmd =
      (if ((splitComma (cd.drop aci)).foldl
            (disableStep sf n ids cmd) ([], [])).1 ≠ [] then
        dinsert dp (n + 1)
          ((splitComma (cd.drop aci)).foldl
            (disableStep sf n ids cmd) ([], [])).1
      else dp,
      (splitComma (cd.drop aci)).flatMap (errOf sf n ids cmd)) := by
  unfold handle_disable_next_line
  dsimp only
  split <;> simp_all [foldl_disableStep_snd]

theorem compile_single_pragma_eq (scanFile : Str) (k : Int)
    (pl : List (Int × Str)) (allIds : List (Str × FoundPlugin))
    (dp : List (Int × List Str)) (raw : Str)
    (h : alookup k pl = some raw) :
    compile_single_pragma scanFile k pl allIds dp =
      (if commandOf k raw = [] then
        some (pl, dp, [⟨scanFile, actualLineNumberOf k, msgNoCommand⟩])
      else if commandOf k raw = dnlStr then
        some (pl,
          (handle_disable_next_line (commandDataOf k raw)
            (afterCommandIndexOf k raw) scanFile (actualLineNumberOf k) dp
            allIds (commandOf k raw)).1,
          (handle_disable_next_line (commandDataOf k raw)
            (afterCommandIndexOf k raw) scanFile (actualLineNumberOf k) dp
            allIds (commandOf k raw)).2)
      else
        some (pl, dp,
          [⟨scanFile, actualLineNumberOf k,
            msgNotUnderstood (commandOf k raw)⟩])) := by
  unfold compile_single_pragma
  rw [h]
  dsimp only
  rw [extract_spaces_zero]
  dsimp only
  rw [extract_until_spaces_zero]
  dsimp only
  simp only [commandOf, commandDataOf, afterCommandIndexOf, lineAfterOf]

/-- C7: for every line presented to `look_for_pragmas` with container depth
greater than zero, or with non-empty extracted leading whitespace, the
function returns false and leaves the pragma map untouched, regardless of
the line's text. -/
theorem c7_nested_or_indented_never_pragma (n : Int) (line : Str) (d : Nat)
    (ws : Option Str) (pl : List (Int × Str))
    (h : 0 < d ∨ ∃ w, ws = some w ∧ w ≠ []) :
    look_for_pragmas n line d ws pl = (false, pl) := by
  unfold look_for_pragmas
  split
  · rename_i hcond
    exfalso
    obtain ⟨h1, h2, -⟩ := hcond
    rcases h with hd | ⟨w, hws, hw⟩
    · omega
    · subst hws
      rcases h2 with h2 | h2
      · simp at h2
      · exact hw (Option.some.inj h2)
  · rfl

theorem c7_witness :
    look_for_pragmas 1 wLine1 1 none [] = (false, []) ∧
    look_for_pragmas 1 wLine1 0 (some " ".toList) [] = (false, []) :=
  ⟨c7_nested_or_indented_never_pragma 1 wLine1 1 none [] (Or.inl (by decide)),
    c7_nested_or_indented_never_pragma 1 wLine1 0 (some " ".toList) []
      (Or.inr ⟨" ".toList, rfl, by decide⟩)⟩

/-- C8: every physical line recognized as a directive by
`look_for_pragmas` stores exactly one entry in the pragma map: key
`+line_number` with the raw text when the line begins with the standard
prefix and not the alternate one, key `-line_number` when it begins with
the alternate prefix; the opposite-signed key is never touched, so both
keys are never stored for the same physical line. -/
theorem c8_signed_key_of_prefix (n : Int) (line : Str) (d : Nat)
    (ws : Option Str) (pl pl' : List (Int × Str))
    (h : look_for_pragmas n line d ws pl = (true, pl')) :
    pl' = dinsert pl (if startsWith line pragmaAltStart then -n else n) line ∧
    alookup (if startsWith line pragmaAltStart then -n else n) pl' =
      some line ∧
    (∀ m : Int, m ≠ (if startsWith line pragmaAltStart then -n else n) →
      alookup m pl' = alookup m pl) ∧
    (0 < n → startsWith line pragmaAltStart = true →
      alookup n pl' = alookup n pl) ∧
    (0 < n → startsWith line pragmaAltStart = false →
      alookup (-n) pl' = alookup (-n) pl) := by
  unfold look_for_pragmas at h
  split at h
  · rename_i hcond
    dsimp only at h
    split at h
    · simp at h
    · split at h
      · rw [Prod.mk.injEq] at h
        obtain ⟨-, h2⟩ := h
        subst h2
        refine ⟨rfl, alookup_dinsert_self pl _ line, ?_, ?_, ?_⟩
        · intro m hm
          exact alookup_dinsert_ne pl _ m line hm
        · intro hn halt
          rw [if_pos halt]
          exact alookup_dinsert_ne pl (-n) n line (by omega)
        · intro hn halt
          rw [if_neg (by simp [halt])]
          exact alookup_dinsert_ne pl n (-n) line (by omega)
      · simp at h
  · simp at h

theorem c8_witness :
    [((1 : Int), wLine1), (-2, wLine2)] =
      dinsert [((1 : Int), wLine1)]
        (if startsWith wLine2 pragmaAltStart then -2 else 2) wLine2 ∧
    alookup (if startsWith wLine2 pragmaAltStart then -2 else 2)
      [((1 : Int), wLine1), (-2, wLine2)] = some wLine2 ∧
    (∀ m : Int, m ≠ (if startsWith wLine2 pragmaAltStart then -2 else 2) →
      alookup m [((1 : Int), wLine1), (-2, wLine2)] =
        alookup m [((1 : Int), wLine1)]) ∧
    (0 < (2 : Int) → startsWith wLine2 pragmaAltStart = true →
      alookup 2 [((1 : Int), wLine1), (-2, wLine2)] =
        alookup 2 [((1 : Int), wLine1)]) ∧
    (0 < (2 : Int) → startsWith wLine2 pragmaAltStart = false →
      alookup (-2) [((1 : Int), wLine1), (-2, wLine2)] =
        alookup (-2) [((1 : Int), wLine1)]) :=
  c8_signed_key_of_prefix 2 wLine2 0 none [((1 : Int), wLine1)]
    [((1 : Int), wLine1), (-2, wLine2)] (by decide)

/-- C2: for every directive stored under signed key `k` whose parsed
command is `disable-next-line` and whose id list resolves to at least one
known plugin, compilation stores exactly one suppression-table entry, at
key `|k| + 1` (never `|k|` or `|k| + 2`), whose value is the set of
canonical plugin ids of the resolving tokens (aliases resolve to the
canonical id, never the alias itself). -/
theorem c2_suppression_key_is_line_plus_one (scanFile : Str) (k : Int)
    (pl : List (Int × Str)) (allIds : List (Str × FoundPlugin))
    (dp : List (Int × List Str)) (raw t : Str)
    (hraw : alookup k pl = some raw)
    (hcmd : commandOf k raw = dnlStr)
    (hmem : t ∈ splitComma
      ((commandDataOf k raw).drop (afterCommandIndexOf k raw)))
    (hvalid : validCanon allIds t ≠ none) :
    ∃ S errs,
      compile_single_pragma scanFile k pl allIds dp =
        some (pl, dinsert dp (actualLineNumberOf k + 1) S, errs) ∧
      alookup (actualLineNumberOf k + 1)
        (dinsert dp (actualLineNumberOf k + 1) S) = some S ∧
      alookup (actualLineNumberOf k)
        (dinsert dp (actualLineNumberOf k + 1) S) =
        alookup (actualLineNumberOf k) dp ∧
      alookup (actualLineNumberOf k + 2)
        (dinsert dp (actualLineNumberOf k + 1) S) =
        alookup (actualLineNumberOf k + 2) dp ∧
      (∀ m : Int, m ≠ actualLineNumberOf k + 1 →
        alookup m (dinsert dp (actualLineNumberOf k + 1) S) = alookup m dp) ∧
      (∀ x, x ∈ S ↔
        ∃ u ∈ splitComma
          ((commandDataOf k raw).drop (afterCommandIndexOf k raw)),
          validCanon allIds u = some x) := by
  have hne : commandOf k raw ≠ [] := by
    rw [hcmd]
    decide
  obtain ⟨x, hx⟩ := Option.ne_none_iff_exists'.mp hvalid
  have hxmem : x ∈ ((splitComma
      ((commandDataOf k raw).drop (afterCommandIndexOf k raw))).foldl
        (disableStep scanFile (actualLineNumberOf k) allIds
          (commandOf k raw)) ([], [])).1 :=
    (foldl_disableStep_fst_mem scanFile (actualLineNumberOf k) allIds
      (commandOf k raw) _ ([], []) x).2 (Or.inr ⟨t, hmem, hx⟩)
  have hSne : ((splitComma
      ((commandDataOf k raw).drop (afterCommandIndexOf k raw))).foldl
        (disableStep scanFile (actualLineNumberOf k) allIds
          (commandOf k raw)) ([], [])).1 ≠ [] :=
    List.ne_nil_of_mem hxmem
  have hE := compile_single_pragma_eq scanFile k pl allIds dp raw hraw
  rw [if_neg hne, if_pos hcmd, handle_disable_next_line_eq] at hE
  dsimp only at hE
  rw [if_pos hSne] at hE
  refine ⟨_, _, hE, alookup_dinsert_self dp _ _,
    alookup_dinsert_ne dp _ _ _ (by omega),
    alookup_dinsert_ne dp _ _ _ (by omega),
    fun m hm => alookup_dinsert_ne dp _ m _ hm, fun y => ?_⟩
  rw [foldl_disableStep_fst_mem]
  simp

theorem c2_witness :
    ∃ S errs,
      compile_single_pragma wFile 1 [((1 : Int), wLine1)] wIds [] =
        some ([((1 : Int), wLine1)],
          dinsert [] (actualLineNumberOf 1 + 1) S, errs) ∧
      alookup (actualLineNumberOf 1 + 1)
        (dinsert [] (actualLineNumberOf 1 + 1) S) = some S ∧
      alookup (actualLineNumberOf 1)
        (dinsert [] (actualLineNumberOf 1 + 1) S) =
        alookup (actualLineNumberOf 1) [] ∧
      alookup (actualLineNumberOf 1 + 2)
        (dinsert [] (actualLineNumberOf 1 + 1) S) =
        alookup (actualLineNumberOf 1 + 2) [] ∧
      (∀ m : Int, m ≠ actualLineNumberOf 1 + 1 →
        alookup m (dinsert [] (actualLineNumberOf 1 + 1) S) = alookup m []) ∧
      (∀ x, x ∈ S ↔
        ∃ u ∈ splitComma
          ((commandDataOf 1 wLine1).drop (afterCommandIndexOf 1 wLine1)),
          validCanon wIds u = some x) :=
  c2_suppression_key_is_line_plus_one wFile 1 [((1 : Int), wLine1)] wIds []
    wLine1 " fred ".toList (by decide) (by decide) (by decide) (by decide)

/-- C5: in a `disable-next-line` id list, each comma-separated token that
does not resolve (including tokens whose normalization is unknown to the
registry) logs exactly one error — the unknown-id error naming the token —
and is skipped, while every valid token's canonical id still reaches the
stored suppression set; when no token is valid, the suppression table is
left without any new entry. -/
theorem c5_unknown_id_isolated (cd : Str) (aci : Nat) (sf : Str) (n : Int)
    (dp : List (Int × List Str)) (ids : List (Str × FoundPlugin))
    (cmd : Str) :
    ((handle_disable_next_line cd aci sf n dp ids cmd).2 =
      (splitComma (cd.drop aci)).flatMap (errOf sf n ids cmd)) ∧
    (∀ t : Str, normId t ≠ [] → alookup (normId t) ids = none →
      errOf sf n ids cmd t = [⟨sf, n, msgUnknownId cmd (normId t)⟩] ∧
      List.IsInfix (normId t) (msgUnknownId cmd (normId t))) ∧
    (∀ t ∈ splitComma (cd.drop aci), ∀ x : Str,
      validCanon ids t = some x →
      ∃ S, alookup (n + 1)
        (handle_disable_next_line cd aci sf n dp ids cmd).1 = some S ∧
        x ∈ S) ∧
    ((∀ t ∈ splitComma (cd.drop aci), validCanon ids t = none) →
      (handle_disable_next_line cd aci sf n dp ids cmd).1 = dp) := by
  rw [handle_disable_next_line_eq]
  dsimp only
  refine ⟨rfl, ?_, ?_, ?_⟩
  · intro t h1 h2
    refine ⟨by simp [errOf, h1, h2], ?_⟩
    exact ⟨"Inline configuration command ".toList ++ [squote] ++ cmd ++
        [squote] ++ " unable to find a plugin with the id ".toList ++
        [squote],
      [squote] ++ ".".toList,
      by simp [msgUnknownId, List.append_assoc]⟩
  · intro t ht x hx
    have hmem : x ∈ ((splitComma (cd.drop aci)).foldl
        (disableStep sf n ids cmd) ([], [])).1 :=
      (foldl_disableStep_fst_mem sf n ids cmd _ ([], []) x).2
        (Or.inr ⟨t, ht, hx⟩)
    rw [if_pos (List.ne_nil_of_mem hmem)]
    exact ⟨_, alookup_dinsert_self dp _ _, hmem⟩
  · intro hall
    rw [if_neg (by
      simpa using (foldl_disableStep_fst_eq_nil sf n ids cmd
        (splitComma (cd.drop aci))).2 hall)]

theorem c5_witness :
    errOf wFile 1 wIds dnlStr " zzz".toList =
      [⟨wFile, 1, msgUnknownId dnlStr (normId " zzz".toList)⟩] ∧
    (∃ S, alookup 2 (handle_disable_next_line wCd 17 wFile 1 [] wIds
      dnlStr).1 = some S ∧ "MD998".toList ∈ S) ∧
    (handle_disable_next_line wCd 17 wFile 1 [] wIds dnlStr).2 =
      (splitComma (wCd.drop 17)).flatMap (errOf wFile 1 wIds dnlStr) :=
  ⟨((c5_unknown_id_isolated wCd 17 wFile 1 [] wIds dnlStr).2.1
      " zzz".toList (by decide) (by decide)).1,
    (c5_unknown_id_isolated wCd 17 wFile 1 [] wIds dnlStr).2.2.1
      " fred".toList (by decide) "MD998".toList (by decide),
    (c5_unknown_id_isolated wCd 17 wFile 1 [] wIds dnlStr).1⟩

/-- C6: a recognized directive whose command is empty reports exactly one
"specified without command" error, and one whose command is anything other
than `disable-next-line` reports exactly one "not understood" error naming
the command; in both cases no suppression entry is created and no
exception is raised — the result is always `some`, with the error
delivered only through the callback list. -/
theorem c6_bad_command_reports_once (scanFile : Str) (k : Int)
    (pl : List (Int × Str)) (allIds : List (Str × FoundPlugin))
    (dp : List (Int × List Str)) (raw : Str)
    (hraw : alookup k pl = some raw) :
    (∃ r, compile_single_pragma scanFile k pl allIds dp = some r) ∧
    (commandOf k raw = [] →
      compile_single_pragma scanFile k pl allIds dp =
        some (pl, dp, [⟨scanFile, actualLineNumberOf k, msgNoCommand⟩])) ∧
    (commandOf k raw ≠ [] → commandOf k raw ≠ dnlStr →
      compile_single_pragma scanFile k pl allIds dp =
        some (pl, dp, [⟨scanFile, actualLineNumberOf k,
          msgNotUnderstood (commandOf k raw)⟩]) ∧
      List.IsInfix (commandOf k raw) (msgNotUnderstood (commandOf k raw))) := by
  rw [compile_single_pragma_eq scanFile k pl allIds dp raw hraw]
  refine ⟨?_, ?_, ?_⟩
  · by_cases h1 : commandOf k raw = []
    · rw [if_pos h1]
      exact ⟨_, rfl⟩
    · by_cases h2 : commandOf k raw = dnlStr
      · rw [if_neg h1, if_pos h2]
        exact ⟨_, rfl⟩
      · rw [if_neg h1, if_neg h2]
        exact ⟨_, rfl⟩
  · intro h1
    rw [if_pos h1]
  · intro h1 h2
    rw [if_neg h1, if_neg h2]
    refine ⟨rfl, ?_⟩
    exact ⟨"Inline configuration command ".toList ++ [squote],
      [squote] ++ " not understood.".toList,
      by simp [msgNotUnderstood, List.append_assoc]⟩

theorem c6_witness :
    compile_single_pragma wFile 1 [((1 : Int), wNoCmd)] wIds [] =
      some ([((1 : Int), wNoCmd)], [],
        [⟨wFile, actualLineNumberOf 1, msgNoCommand⟩]) ∧
    compile_single_pragma wFile 1 [((1 : Int), wFrob)] wIds [] =
      some ([((1 : Int), wFrob)], [],
        [⟨wFile, actualLineNumberOf 1,
          msgNotUnderstood (commandOf 1 wFrob)⟩]) :=
  ⟨(c6_bad_command_reports_once wFile 1 [((1 : Int), wNoCmd)] wIds []
      wNoCmd (by decide)).2.1 (by decide),
    ((c6_bad_command_reports_once wFile 1 [((1 : Int), wFrob)] wIds []
      wFrob (by decide)).2.2 (by decide) (by decide)).1⟩

/-- C10: a call to `compile_single_pragma` whose signed key is present in
the pragma map never mutates the pragma map (the returned map equals the
input), and whenever validation fails — empty command, unrecognized
command, or an id list resolving to zero valid plugins — the suppression
table is returned completely unchanged. -/
theorem c10_frame_on_failed_validation (scanFile : Str) (k : Int)
    (pl : List (Int × Str)) (allIds : List (Str × FoundPlugin))
    (dp : List (Int × List Str)) (raw : Str)
    (hraw : alookup k pl = some raw) :
    ∃ dp' errs,
      compile_single_pragma scanFile k pl allIds dp = some (pl, dp', errs) ∧
      (commandOf k raw ≠ dnlStr → dp' = dp) ∧
      ((∀ u ∈ splitComma
          ((commandDataOf k raw).drop (afterCommandIndexOf k raw)),
        validCanon allIds u = none) → dp' = dp) := by
  rw [compile_single_pragma_eq scanFile k pl allIds dp raw hraw]
  by_cases h1 : commandOf k raw = []
  · rw [if_pos h1]
    exact ⟨dp, _, rfl, fun _ => rfl, fun _ => rfl⟩
  · by_cases h2 : commandOf k raw = dnlStr
    · rw [if_neg h1, if_pos h2, handle_disable_next_line_eq]
      dsimp only
      refine ⟨_, _, rfl, fun hc => absurd h2 hc, fun hall => ?_⟩
      rw [if_neg (by
        simpa using (foldl_disableStep_fst_eq_nil scanFile
          (actualLineNumberOf k) allIds (commandOf k raw)
          (splitComma
            ((commandDataOf k raw).drop (afterCommandIndexOf k raw)))).2
          hall)]
    · rw [if_neg h1, if_neg h2]
      exact ⟨dp, _, rfl, fun _ => rfl, fun _ => rfl⟩

theorem c10_witness :
    ∃ dp' errs,
      compile_single_pragma wFile 1 [((1 : Int), wFrob)] wIds [] =
        some ([((1 : Int), wFrob)], dp', errs) ∧
      (commandOf 1 wFrob ≠ dnlStr → dp' = []) ∧
      ((∀ u ∈ splitComma
          ((commandDataOf 1 wFrob).drop (afterCommandIndexOf 1 wFrob)),
        validCanon wIds u = none) → dp' = []) :=
  c10_frame_on_failed_validation wFile 1 [((1 : Int), wFrob)] wIds []
    wFrob (by decide)

theorem joinSep_aux (xs : List Str) :
    (xs.flatMap (fun x => ';' :: x)).drop 1 = joinSep [';'] xs := by
  induction xs with
  | nil => rfl
  | cons x ys ih =>
    cases ys with
    | nil => simp [joinSep]
    | cons y ys' =>
      have hflat : ((y :: ys').flatMap (fun x => ';' :: x)) =
          ';' :: joinSep [';'] (y :: ys') := by
        rw [← ih]
        simp
      calc ((x :: y :: ys').flatMap (fun x => ';' :: x)).drop 1
          = x ++ (y :: ys').flatMap (fun x => ';' :: x) := by simp
        _ = x ++ [';'] ++ joinSep [';'] (y :: ys') := by
              rw [hflat, List.append_assoc]
              rfl
        _ = joinSep [';'] (x :: y :: ys') := by rw [joinSep]

/-- C3 (amended): iterating the pragma map visits its entries in insertion
order (the dict's iteration order), not in numeric key order; in that
order, `PragmaToken` serialization concatenates the entries as
`;<key>:<raw text>` and strips the leading separator — equivalently, it
joins the rendered entries with single `;` separators. -/
theorem c3_amended_serialization_in_insertion_order
    (pl : List (Int × Str)) :
    (mkPragmaToken pl).extra_data =
      joinSep [';'] (pl.map (fun p => intStr p.1 ++ ':' :: p.2)) := by
  unfold mkPragmaToken serializedPragmas
  rw [← joinSep_aux]
  simp [List.flatMap_map, Function.comp]

/-- C3 (counterexample): a pragma map reached through two recognized
directives — a standard-prefix line 1 and an alternate-prefix line 2 — has
iteration order `[+1, -2]`, which is not numeric key order, and its
serialization differs from the serialization in numeric key order. -/
theorem c3_counterexample_not_numeric_order :
    look_for_pragmas 1 wLine1 0 none [] = (true, [(1, wLine1)]) ∧
    look_for_pragmas 2 wLine2 0 none [((1 : Int), wLine1)] =
      (true, [(1, wLine1), (-2, wLine2)]) ∧
    ¬ List.Sorted (· ≤ ·)
      (([((1 : Int), wLine1), (-2, wLine2)]).map Prod.fst) ∧
    serializedPragmas [((1 : Int), wLine1), (-2, wLine2)] ≠
      serializedPragmasNumeric [((1 : Int), wLine1), (-2, wLine2)] :=
  ⟨by decide, by decide, by decide, by decide⟩

/-- C9: constructing a `PragmaToken` from the singleton map
`{1: "<!-- pyml disable-next-line no-trailing-spaces -->"}` produces the
`extra_data` payload
`"1:<!-- pyml disable-next-line no-trailing-spaces -->"`. -/
theorem c9_singleton_serialization :
    (mkPragmaToken [((1 : Int),
      "<!-- pyml disable-next-line no-trailing-spaces -->".toList)]).extra_data =
      "1:<!-- pyml disable-next-line no-trailing-spaces -->".toList := by
  decide

theorem scanLineLoop_eq (n : Nat) (ls : List Str) :
    scanLineLoop n ls =
      ((ls.enumFrom n).map (fun p => ScanEvent.nextLine p.1 p.2),
        n + ls.length) := by
  induction ls generalizing n with
  | nil => simp [scanLineLoop]
  | cons l ls ih =>
    simp [scanLineLoop, ih, List.enumFrom]
    omega

theorem enumFrom_map_fst_range' (n : Nat) (ls : List Str) :
    (ls.enumFrom n).map Prod.fst = List.range' n ls.length := by
  induction ls generalizing n with
  | nil => rfl
  | cons l ls ih =>
    rw [List.enumFrom, List.map_cons, List.length_cons, List.range'_succ, ih]

/-- C4 (amended): a file of N physical lines that completes a scan without
error produces the event trace `starting_new_file`, then `next_line` with
line numbers exactly 1, 2, ..., N in strictly increasing order, then all
token events in the tokenizer's emission order, then the `completed_file`
notification carrying N + 1 — the final value of the line counter, one
more than the physical line count — with the raw-line pass fully finished
before tokenization begins. -/
theorem c4_amended_scan_trace (f : Str) (lines : List Str)
    (tokenCount : Nat) :
    scan_file f lines tokenCount =
      ScanEvent.startingNewFile f ::
        ((lines.enumFrom 1).map (fun p => ScanEvent.nextLine p.1 p.2) ++
          ((List.range tokenCount).map ScanEvent.nextToken ++
            [ScanEvent.completedFile (lines.length + 1)])) ∧
    (lines.enumFrom 1).map Prod.fst = List.range' 1 lines.length := by
  constructor
  · unfold scan_file
    rw [scanLineLoop_eq]
    simp [Nat.add_comm]
  · exact enumFrom_map_fst_range' 1 lines

/-- C4 (counterexample): scanning a two-line file notifies `completed_file`
with 3, not with the claimed final line count 2 — no `completed_file 2`
event ever occurs in the trace. -/
theorem c4_counterexample_completed_count :
    ScanEvent.completedFile (List.length ["a".toList, "b".toList]) ∉
      scan_file "f".toList ["a".toList, "b".toList] 2 ∧
    ScanEvent.completedFile 3 ∈
      scan_file "f".toList ["a".toList, "b".toList] 2 := by
  decide

/-- C1: with `files_to_scan = [a.md, b.md]` and `a.md` raising
`BadTokenizationError("boom")`, the run loop prints the per-file formatted
error but then terminates the whole run through `sys.exit(1)` inside
`__handle_error`: `b.md` is never scanned and no failure count is
incremented, even though both files are scanned when no error occurs. -/
theorem c1_scan_failure_aborts_whole_run :
    scanLoop c1Outcome ["a.md".toList, "b.md".toList] =
      ⟨[], [formatScanError "BadTokenizationError".toList "a.md".toList
        "boom".toList], some 1⟩ ∧
    "b.md".toList ∉
      (scanLoop c1Outcome ["a.md".toList, "b.md".toList]).scannedFiles ∧
    (scanLoop (fun _ => ScanOutcome.ok)
      ["a.md".toList, "b.md".toList]).scannedFiles =
      ["a.md".toList, "b.md".toList] :=
  ⟨by decide, by decide, by decide⟩
